import Mathlib

/-!
Verification of the recursive DNS resolver in `src/dnsresolver.py` against its
natural-language specification.

The embedding mirrors the source closely:

* `ROOT_SERVERS` is the module-level list of 13 IPv4 root-server addresses
  (lines 19-33).  Python lists are mutable heap objects, so the embedding uses
  an explicit heap of list cells (`Heap`); the root table lives in cell
  `rootRef`, and `ROOT_SERVERS[:]` (line 39) is modelled as allocating a fresh
  cell holding the current contents of that cell.
* `resolve` (lines 35-121) is the recursive resolver.  Its `while True:` loop
  is `resolveLoop`; the non-terminating nature of the source loop is handled
  with a fuel parameter (`none` = the run did not finish within the given
  fuel).  The external collaborators - `dns.message.make_query`,
  `dns.query.udp` and the codec - are abstracted as an oracle `Env.net`
  mapping (server, domain, qtype) to a timeout, a transport/decode error, or
  a decoded `DNSResponse`; `random.choice` (line 46) is abstracted as an
  arbitrary index stream `Env.rand` consumed through a counter.
* The `try`/`except` of lines 49-121 is modelled by `Except String`:
  `.error msg` is a raised exception carrying its message.  Both handlers
  (lines 116-121) behave identically (remove the picked server, continue), and
  they also catch exceptions raised by the *nested* `resolve` calls of lines
  67 and 105, since those happen inside the `try` block.
-/

set_option linter.unusedVariables false

namespace dns.rdatatype

/-- Record-type code for an address record, as in dnspython's
`dns.rdatatype.A`. -/
def A : Nat := 1

/-- Record-type code for a nameserver record, as in dnspython's
`dns.rdatatype.NS`. -/
def NS : Nat := 2

/-- Record-type code for a canonical-name record, as in dnspython's
`dns.rdatatype.CNAME`. -/
def CNAME : Nat := 5

end dns.rdatatype

/-- One resource-record set of a response section, as the external codec
exposes it: an owner name, a record-type code (`rdtype`), and the data items
of the individual records (the address of an A record via `item.address`, the
target of a CNAME or NS record via `item.target`). -/
structure RRset where
  ownerName : String
  rdtype : Nat
  data : List String
deriving DecidableEq

/-- A decoded DNS response: the three record sections read by the resolver
(lines 59, 79, 97 of `src/dnsresolver.py`). -/
structure DNSResponse where
  answer : List RRset
  additional : List RRset
  authority : List RRset
deriving DecidableEq

/-- Outcome of one encode/send/decode round against one server: a timeout
(`dns.exception.Timeout`, line 116), any other transport or decode error
(the generic handler of line 119), or a decoded response. -/
inductive QueryOutcome where
  | timeout
  | netError
  | ok (response : DNSResponse)
deriving DecidableEq

/-- The external world the resolver runs against: `net` is the composed
`make_query`/`udp`/decode collaborator, `rand` is the stream of indices that
`random.choice` draws (consumed through a counter and reduced modulo the pool
size, so any stream denotes a legal sequence of choices). -/
structure Env where
  net : String → String → Nat → QueryOutcome
  rand : Nat → Nat

/-- A reference to a mutable Python list object. -/
abbrev Ref := Nat

/-- Lookup of a heap cell by index; out-of-range indices yield `[]`. -/
def listGetD : List (List String) → Nat → List String
  | [], _ => []
  | x :: _, 0 => x
  | _ :: xs, n+1 => listGetD xs n

/-- The mutable store of Python list objects the resolver touches: the root
table and, per in-flight call, a `nameservers` pool and a `visited` path. -/
structure Heap where
  cells : List (List String)
deriving DecidableEq

/-- Read a list cell. -/
def Heap.get (h : Heap) (r : Ref) : List String :=
  listGetD h.cells r

/-- Overwrite a list cell in place (Python list mutation). -/
def Heap.set (h : Heap) (r : Ref) (v : List String) : Heap :=
  ⟨h.cells.set r v⟩

/-- Allocate a fresh list object (Python list display or slice copy). -/
def Heap.alloc (h : Heap) (v : List String) : Heap × Ref :=
  (⟨h.cells ++ [v]⟩, h.cells.length)

/-- The heap cell holding the process-wide root server table. -/
def rootRef : Ref := 0

/-- The 13 root-server IPv4 addresses of lines 19-33. -/
def ROOT_SERVERS : List String :=
  ["198.41.0.4", "199.9.14.201", "192.33.4.12", "199.7.91.13",
   "192.203.230.10", "192.5.5.241", "192.112.36.4", "198.97.190.53",
   "192.36.148.17", "192.58.128.30", "193.0.14.129", "199.7.83.42",
   "202.12.27.33"]

/-- The heap at process start: only the root table exists. -/
def Heap.init : Heap := ⟨[ROOT_SERVERS]⟩

/-- Result of scanning the answer section (lines 59-67): the first record set
whose type is the requested type is returned; otherwise the first CNAME record
set triggers a chase of its target (`ans[0].target`, line 65) - or an
IndexError if that record set has no items; record sets of other types are
skipped. -/
inductive ScanResult where
  | found (ans : RRset)
  | cnameFound (target : String)
  | cnameIndexError
  | noMatch
deriving DecidableEq

/-- The `for ans in response.answer` loop of lines 60-67: acts on the first
record set whose type is the requested type (return it) or CNAME (chase its
target), in section order. -/
def scanAnswer (qtype : Nat) : List RRset → ScanResult
  | [] => .noMatch
  | ans :: rest =>
      if ans.rdtype = qtype then .found ans
      else if ans.rdtype = dns.rdatatype.CNAME then
        match ans.data with
        | [] => .cnameIndexError
        | target :: _ => .cnameFound target
      else scanAnswer qtype rest

/-- Lines 78-82: gather `item.address` of every A record set in the additional
section, in order, with no owner-name check. -/
def collectA : List RRset → List String
  | [] => []
  | add :: rest => (if add.rdtype = dns.rdatatype.A then add.data else []) ++ collectA rest

/-- Lines 96-100: gather `str(item.target)` of every NS record set in the
authority section, in order. -/
def collectNS : List RRset → List String
  | [] => []
  | auth :: rest => (if auth.rdtype = dns.rdatatype.NS then auth.data else []) ++ collectNS rest

/-- The observable outcome of one `resolve` invocation: the returned record or
raised exception, the heap and choice counter afterwards, and the references
of the call's own `nameservers` and `visited` lists. -/
structure RunResult where
  result : Except String RRset
  heap : Heap
  ctr : Nat
  nsRef : Ref
  visRef : Ref

/-- The `for ns_name in ns_names` loop of lines 103-108, parametrised by the
resolver used for the nested calls of line 105.  A record returned by a nested
call contributes its addresses (`if ns_ans:` then `r.address` for each item);
an exception raised by a nested call propagates out of the loop (it is inside
the enclosing `try`, so the outer handler will catch it). -/
def resolveNSNames (resolveFn : String → Nat → Heap → Nat → Option RunResult) :
    List String → List String → Heap → Nat →
    Option (Except String (List String) × Heap × Nat)
  | [], new_ns, h, c => some (.ok new_ns, h, c)
  | ns_name :: rest, new_ns, h, c =>
      match resolveFn ns_name dns.rdatatype.A h c with
      | none => none
      | some r =>
          match r.result with
          | .error e => some (.error e, r.heap, r.ctr)
          | .ok ns_ans =>
              resolveNSNames resolveFn rest
                (if ns_ans.data.isEmpty then new_ns else new_ns ++ ns_ans.data)
                r.heap r.ctr

/-- One level of the `while True:` loop of lines 42-121, parametrised by the
one-level-less resolver (for the nested calls of lines 67 and 105) and loop
(for the next iteration).  Branches, in source order: pool-emptiness check
(43-44), pick and append to `visited` (46-47), query (50-51), answer scan
(59-67) with the CNAME chase whose raised exceptions fall into the handlers,
glue from the additional section (78-85), authority NS names resolved via
nested calls (96-111), the bare fallthrough that changes nothing (after 111),
and the two handlers (116-121) that remove the picked server and retry. -/
def resolveLoopBody (env : Env)
    (resolvePrev : String → Nat → Heap → Nat → Option RunResult)
    (loopPrev : String → Nat → Ref → Ref → Heap → Nat →
      Option (Except String RRset × Heap × Nat))
    (domain : String) (qtype : Nat) (nsRef visRef : Ref) (h : Heap) (c : Nat) :
    Option (Except String RRset × Heap × Nat) :=
  if (h.get nsRef).isEmpty then
    some (.error "No more nameservers to query.", h, c)
  else
    let ns := (h.get nsRef).getD (env.rand c % (h.get nsRef).length) ""
    let h1 := h.set visRef ((h.get visRef) ++ [ns])
    match env.net ns domain qtype with
    | .timeout =>
        loopPrev domain qtype nsRef visRef
          (h1.set nsRef ((h1.get nsRef).erase ns)) (c+1)
    | .netError =>
        loopPrev domain qtype nsRef visRef
          (h1.set nsRef ((h1.get nsRef).erase ns)) (c+1)
    | .ok response =>
        match scanAnswer qtype response.answer with
        | .found ans => some (.ok ans, h1, c+1)
        | .cnameFound target =>
            match resolvePrev target qtype h1 (c+1) with
            | none => none
            | some r =>
                match r.result with
                | .ok a => some (.ok a, r.heap, r.ctr)
                | .error _ =>
                    loopPrev domain qtype nsRef visRef
                      (r.heap.set nsRef ((r.heap.get nsRef).erase ns)) r.ctr
        | .cnameIndexError =>
            loopPrev domain qtype nsRef visRef
              (h1.set nsRef ((h1.get nsRef).erase ns)) (c+1)
        | .noMatch =>
            let new_ns := collectA response.additional
            if new_ns.isEmpty then
              match resolveNSNames resolvePrev (collectNS response.authority) [] h1 (c+1) with
              | none => none
              | some (.error _, h2, c2) =>
                  loopPrev domain qtype nsRef visRef
                    (h2.set nsRef ((h2.get nsRef).erase ns)) c2
              | some (.ok new_ns2, h2, c2) =>
                  if new_ns2.isEmpty then
                    loopPrev domain qtype nsRef visRef h2 c2
                  else
                    loopPrev domain qtype nsRef visRef (h2.set nsRef new_ns2) c2
            else
              loopPrev domain qtype nsRef visRef (h1.set nsRef new_ns) (c+1)

/-- The body of `resolve` around the loop (lines 39-40): allocate this call's
own `nameservers` list as a copy of the root table (`ROOT_SERVERS[:]`) and its
own empty `visited` list, then run the loop. -/
def resolveBody (env : Env)
    (loopPrev : String → Nat → Ref → Ref → Heap → Nat →
      Option (Except String RRset × Heap × Nat))
    (domain : String) (qtype : Nat) (h : Heap) (c : Nat) : Option RunResult :=
  let a1 := h.alloc (h.get rootRef)
  let a2 := a1.1.alloc []
  match loopPrev domain qtype a1.2 a2.2 a2.1 c with
  | none => none
  | some (res, h3, c3) => some ⟨res, h3, c3, a1.2, a2.2⟩

/-- The fuel-indexed tower of (resolver, loop) pairs: level `fuel+1` runs one
more loop iteration / one more nested call than level `fuel`.  Structural
recursion on the fuel keeps every run kernel-computable. -/
def resolveFns (env : Env) : Nat →
    ((String → Nat → Heap → Nat → Option RunResult) ×
     (String → Nat → Ref → Ref → Heap → Nat →
       Option (Except String RRset × Heap × Nat)))
  | 0 => (fun _ _ _ _ => none, fun _ _ _ _ _ _ => none)
  | fuel+1 =>
      let prev := resolveFns env fuel
      (resolveBody env prev.2, resolveLoopBody env prev.1 prev.2)

/-- The resolver of lines 35-121 at a given fuel. -/
def resolve (env : Env) (fuel : Nat) :
    String → Nat → Heap → Nat → Option RunResult :=
  (resolveFns env fuel).1

/-- The `while True:` loop of lines 42-121 at a given fuel, acting on the
given `nameservers` and `visited` cells. -/
def resolveLoop (env : Env) (fuel : Nat) :
    String → Nat → Ref → Ref → Heap → Nat →
    Option (Except String RRset × Heap × Nat) :=
  (resolveFns env fuel).2

/-- A finished `resolve` run leaves every pre-existing heap cell (the root
table can only be one of them) exactly as it found it, and only grows the heap. -/
def ResolveFrameP (f : Nat) : Prop :=
  ∀ (env : Env) (d : String) (q : Nat) (h : Heap) (c : Nat) (r : RunResult),
    resolve env f d q h c = some r →
    (∀ ref, ref < h.cells.length → r.heap.get ref = h.get ref) ∧
    h.cells.length ≤ r.heap.cells.length

/-- A finished loop run writes only the call's own `nameservers` and
`visited` cells among the pre-existing cells. -/
def LoopFrameP (f : Nat) : Prop :=
  ∀ (env : Env) (d : String) (q : Nat) (nsRef visRef : Ref) (h : Heap) (c : Nat)
    (res : Except String RRset) (h' : Heap) (c' : Nat),
    resolveLoop env f d q nsRef visRef h c = some (res, h', c') →
    (∀ ref, ref < h.cells.length → ref ≠ nsRef → ref ≠ visRef →
      h'.get ref = h.get ref) ∧
    h.cells.length ≤ h'.cells.length

/-- The NS-name loop of lines 103-108 leaves every pre-existing cell unchanged
(it only issues fresh nested calls). -/
def NSFrameP (f : Nat) : Prop :=
  ∀ (env : Env) (names acc : List String) (h : Heap) (c : Nat)
    (res : Except String (List String)) (h' : Heap) (c' : Nat),
    resolveNSNames (resolve env f) names acc h c = some (res, h', c') →
    (∀ ref, ref < h.cells.length → h'.get ref = h.get ref) ∧
    h.cells.length ≤ h'.cells.length

/-- Every normal return of `resolve` carries a record set of the requested
type. -/
def ResolveTypeP (f : Nat) : Prop :=
  ∀ (env : Env) (d : String) (q : Nat) (h : Heap) (c : Nat) (r : RunResult) (a : RRset),
    resolve env f d q h c = some r → r.result = .ok a → a.rdtype = q

/-- Every normal exit of the loop carries a record set of the requested
type. -/
def LoopTypeP (f : Nat) : Prop :=
  ∀ (env : Env) (d : String) (q : Nat) (nsRef visRef : Ref) (h : Heap) (c : Nat)
    (res : Except String RRset) (h' : Heap) (c' : Nat) (a : RRset),
    resolveLoop env f d q nsRef visRef h c = some (res, h', c') → res = .ok a →
    a.rdtype = q

/-! ## Concrete worlds used for counterexamples and witnesses -/

/-- Every server answers every query with one matching address record. -/
def envOK : Env :=
  { net := fun _ _ _ =>
      .ok ⟨[⟨"example.com", dns.rdatatype.A, ["93.184.216.34"]⟩], [], []⟩,
    rand := fun _ => 0 }

/-- Every query times out. -/
def envT : Env := { net := fun _ _ _ => .timeout, rand := fun _ => 0 }

/-- Every server answers every query with a completely empty response
(empty answer, additional and authority sections). -/
def envEmptyResp : Env := { net := fun _ _ _ => .ok ⟨[], [], []⟩, rand := fun _ => 0 }

/-- For `d.example` every server serves an answer section holding a CNAME
record (target `t.example`) followed by an A record `1.1.1.1`; for any other
name it serves the A record `9.9.9.9`. -/
def envCname : Env :=
  { net := fun _ domain _ =>
      if domain = "d.example" then
        .ok ⟨[⟨"d.example", dns.rdatatype.CNAME, ["t.example"]⟩,
              ⟨"d.example", dns.rdatatype.A, ["1.1.1.1"]⟩], [], []⟩
      else .ok ⟨[⟨"t.example", dns.rdatatype.A, ["9.9.9.9"]⟩], [], []⟩,
    rand := fun _ => 0 }

/-- An authority-only referral world: every query for `x.ns.example` fails
with a transport error, `y.ns.example` resolves to `5.6.7.8` everywhere, the
server `5.6.7.8` would answer `example.com` with `42.42.42.42`, and every
other server returns a glueless referral naming `x.ns.example` and
`y.ns.example`. -/
def envPartial : Env :=
  { net := fun s domain _ =>
      if domain = "x.ns.example" then .netError
      else if domain = "y.ns.example" then
        .ok ⟨[⟨"y.ns.example", dns.rdatatype.A, ["5.6.7.8"]⟩], [], []⟩
      else if s = "5.6.7.8" then
        .ok ⟨[⟨"example.com", dns.rdatatype.A, ["42.42.42.42"]⟩], [], []⟩
      else
        .ok ⟨[], [], [⟨"com", dns.rdatatype.NS, ["x.ns.example", "y.ns.example"]⟩]⟩,
    rand := fun _ => 0 }

/-- A referral whose additional section carries A records whose owner names
do not match the NS hostname named in the authority section, plus a non-A
record set that must be ignored. -/
def envGlue : Env :=
  { net := fun _ _ _ =>
      .ok ⟨[],
        [⟨"ns1.tld", dns.rdatatype.A, ["7.7.7.7"]⟩,
         ⟨"unrelated.owner", dns.rdatatype.A, ["8.8.8.8"]⟩,
         ⟨"ns1.tld", dns.rdatatype.NS, ["skip.me"]⟩],
        [⟨"tld", dns.rdatatype.NS, ["ns-other.example"]⟩]⟩,
    rand := fun _ => 0 }

/-- An answer section holding a matching A record first and a CNAME record
after it. -/
def envPrio : Env :=
  { net := fun _ _ _ =>
      .ok ⟨[⟨"d.example", dns.rdatatype.A, ["1.1.1.1"]⟩,
            ⟨"d.example", dns.rdatatype.CNAME, ["t.example"]⟩], [], []⟩,
    rand := fun _ => 0 }

theorem resolve_zero (env : Env) (d : String) (q : Nat) (h : Heap) (c : Nat) :
    resolve env 0 d q h c = none := rfl

theorem resolveLoop_zero (env : Env) (d : String) (q : Nat) (nsRef visRef : Ref)
    (h : Heap) (c : Nat) : resolveLoop env 0 d q nsRef visRef h c = none := rfl

theorem resolve_succ (env : Env) (f : Nat) (d : String) (q : Nat) (h : Heap) (c : Nat) :
    resolve env (f+1) d q h c = resolveBody env (resolveLoop env f) d q h c := rfl

theorem resolveLoop_succ (env : Env) (f : Nat) (d : String) (q : Nat)
    (nsRef visRef : Ref) (h : Heap) (c : Nat) :
    resolveLoop env (f+1) d q nsRef visRef h c =
      resolveLoopBody env (resolve env f) (resolveLoop env f) d q nsRef visRef h c := rfl

/-! ## Heap lemmas -/

theorem listGetD_set_ne : ∀ (l : List (List String)) (i j : Nat) (v : List String),
    i ≠ j → listGetD (l.set i v) j = listGetD l j
  | [], _, _, _, _ => rfl
  | _ :: _, 0, 0, _, hij => absurd rfl hij
  | _ :: _, 0, _+1, _, _ => rfl
  | _ :: _, _+1, 0, _, _ => rfl
  | _ :: xs, i+1, j+1, v, hij =>
      listGetD_set_ne xs i j v (fun e => hij (congrArg Nat.succ e))

theorem listGetD_set_self : ∀ (l : List (List String)) (i : Nat) (v : List String),
    i < l.length → listGetD (l.set i v) i = v
  | [], _, _, hi => absurd hi (by simp)
  | _ :: _, 0, _, _ => rfl
  | _ :: xs, i+1, v, hi => listGetD_set_self xs i v (Nat.lt_of_succ_lt_succ hi)

theorem listGetD_append_left : ∀ (l₁ l₂ : List (List String)) (i : Nat),
    i < l₁.length → listGetD (l₁ ++ l₂) i = listGetD l₁ i
  | [], _, _, hi => absurd hi (by simp)
  | _ :: _, _, 0, _ => rfl
  | _ :: xs, l₂, i+1, hi => listGetD_append_left xs l₂ i (Nat.lt_of_succ_lt_succ hi)

theorem listGetD_append_self : ∀ (l : List (List String)) (v : List String),
    listGetD (l ++ [v]) l.length = v
  | [], _ => rfl
  | _ :: xs, v => listGetD_append_self xs v

theorem listGetD_of_len_le : ∀ (l : List (List String)) (i : Nat),
    l.length ≤ i → listGetD l i = []
  | [], _, _ => rfl
  | _ :: _, 0, hi => absurd hi (by simp)
  | _ :: xs, i+1, hi => listGetD_of_len_le xs i (Nat.le_of_succ_le_succ hi)

theorem Heap.get_set_ne (h : Heap) (r r' : Ref) (v : List String) (hne : r ≠ r') :
    (h.set r v).get r' = h.get r' := listGetD_set_ne h.cells r r' v hne

theorem Heap.get_set_self (h : Heap) (r : Ref) (v : List String)
    (hr : r < h.cells.length) : (h.set r v).get r = v :=
  listGetD_set_self h.cells r v hr

theorem Heap.length_set (h : Heap) (r : Ref) (v : List String) :
    (h.set r v).cells.length = h.cells.length := List.length_set h.cells r v

theorem Heap.lt_length_of_get_ne_nil (h : Heap) (r : Ref) (hne : h.get r ≠ []) :
    r < h.cells.length := by
  by_contra hc
  exact hne (listGetD_of_len_le h.cells r (Nat.le_of_not_lt hc))

theorem Heap.get_alloc_lt (h : Heap) (v : List String) (r : Ref)
    (hr : r < h.cells.length) : (h.alloc v).1.get r = h.get r :=
  listGetD_append_left h.cells [v] r hr

theorem Heap.get_alloc_self (h : Heap) (v : List String) :
    (h.alloc v).1.get (h.alloc v).2 = v := listGetD_append_self h.cells v

theorem Heap.length_alloc (h : Heap) (v : List String) :
    (h.alloc v).1.cells.length = h.cells.length + 1 := by
  simp [Heap.alloc]

theorem Heap.alloc_snd (h : Heap) (v : List String) :
    (h.alloc v).2 = h.cells.length := rfl

theorem getD_mem_of_lt (l : List String) (i : Nat) (d : String)
    (hi : i < l.length) : l.getD i d ∈ l := by
  rw [List.getD_eq_getElem l d hi]
  exact List.getElem_mem hi

/-! ## Lemmas about the answer scan and the section collectors -/

theorem scanAnswer_found_rdtype : ∀ (q : Nat) (l : List RRset) (a : RRset),
    scanAnswer q l = .found a → a.rdtype = q := by
  intro q l
  induction l with
  | nil => intro a ha; simp [scanAnswer] at ha
  | cons x rest ih =>
      intro a ha
      by_cases hx : x.rdtype = q
      · simp [scanAnswer, hx] at ha; rw [← ha]; exact hx
      · by_cases hc : x.rdtype = dns.rdatatype.CNAME
        · have hcq : ¬ dns.rdatatype.CNAME = q := by rw [← hc]; exact hx
          simp [scanAnswer, hx, hc, hcq] at ha
          cases hdata : x.data with
          | nil => rw [hdata] at ha; simp at ha
          | cons t ts => rw [hdata] at ha; simp at ha
        · simp [scanAnswer, hx, hc] at ha
          exact ih a ha

theorem scanAnswer_eq_found (q : Nat) :
    ∀ (l : List RRset) (i : Nat) (hi : i < l.length),
    (l.get ⟨i, hi⟩).rdtype = q →
    (∀ j (hj : j < i), (l.get ⟨j, Nat.lt_trans hj hi⟩).rdtype ≠ q ∧
        (l.get ⟨j, Nat.lt_trans hj hi⟩).rdtype ≠ dns.rdatatype.CNAME) →
    scanAnswer q l = .found (l.get ⟨i, hi⟩)
  | [], i, hi, _, _ => absurd hi (by simp)
  | x :: rest, 0, hi, hty, _ => by simp [scanAnswer, List.get] at hty ⊢; simp [hty]
  | x :: rest, i+1, hi, hty, hprev => by
      have hx := hprev 0 (Nat.succ_pos i)
      simp [List.get] at hx
      simp [scanAnswer, hx.1, hx.2]
      have := scanAnswer_eq_found q rest i (Nat.lt_of_succ_lt_succ hi)
        (by simpa [List.get] using hty)
        (fun j hj => by
          have := hprev (j+1) (Nat.succ_lt_succ hj)
          simpa [List.get] using this)
      simpa [List.get] using this

theorem collectA_eq_filter_join (l : List RRset) :
    collectA l = ((l.filter fun rr => rr.rdtype = dns.rdatatype.A).map RRset.data).flatten := by
  induction l with
  | nil => rfl
  | cons x rest ih =>
      by_cases hx : x.rdtype = dns.rdatatype.A
      · simp [collectA, hx, List.filter_cons, ih]
      · simp [collectA, hx, List.filter_cons, ih]

/-! ## Frame properties: a call writes only its own freshly allocated cells -/

theorem nsFrame_of_resolveFrame (f : Nat) (RF : ResolveFrameP f) : NSFrameP f := by
  intro env names
  induction names with
  | nil =>
      intro acc h c res h' c' hr
      cases hr
      exact ⟨fun _ _ => rfl, Nat.le_refl _⟩
  | cons name rest ih =>
      intro acc h c res h' c' hr
      simp only [resolveNSNames] at hr
      split at hr
      · exact absurd hr (by simp)
      · rename_i r heq
        split at hr
        · cases hr
          exact RF env name dns.rdatatype.A h c r heq
        · obtain ⟨p0, l0⟩ := RF env name dns.rdatatype.A h c r heq
          obtain ⟨p1, l1⟩ := ih _ _ _ _ _ _ hr
          refine ⟨fun ref hlt => ?_, Nat.le_trans l0 l1⟩
          exact (p1 ref (Nat.lt_of_lt_of_le hlt l0)).trans (p0 ref hlt)

theorem resolveFrame_of_loopFrame (f : Nat) (LF : LoopFrameP f) :
    ResolveFrameP (f+1) := by
  intro env d q h c r hr
  rw [resolve_succ] at hr
  simp only [resolveBody] at hr
  split at hr
  · exact absurd hr (by simp)
  · rename_i res h3 c3 heq
    cases hr
    obtain ⟨p1, l1⟩ := LF env d q _ _ _ c res h3 c3 heq
    have hlen2 : ((h.alloc (h.get rootRef)).1.alloc []).1.cells.length
        = h.cells.length + 2 := by
      rw [Heap.length_alloc, Heap.length_alloc]
    refine ⟨fun ref hlt => ?_, ?_⟩
    · have h1 : ref < ((h.alloc (h.get rootRef)).1.alloc []).1.cells.length := by
        rw [hlen2]; omega
      have hn : ref ≠ (h.alloc (h.get rootRef)).2 := by
        rw [Heap.alloc_snd]; omega
      have hv : ref ≠ ((h.alloc (h.get rootRef)).1.alloc []).2 := by
        rw [Heap.alloc_snd, Heap.length_alloc]; omega
      show h3.get ref = h.get ref
      have e2 : ((h.alloc (h.get rootRef)).1.alloc []).1.get ref
          = (h.alloc (h.get rootRef)).1.get ref :=
        Heap.get_alloc_lt _ _ _ (by rw [Heap.length_alloc]; exact Nat.lt_succ_of_lt hlt)
      have e3 : (h.alloc (h.get rootRef)).1.get ref = h.get ref :=
        Heap.get_alloc_lt _ _ _ hlt
      rw [p1 ref h1 hn hv, e2, e3]
    · show h.cells.length ≤ h3.cells.length
      rw [hlen2] at l1; omega

theorem pres_set_set (h : Heap) (nsRef visRef : Ref) (v w : List String) :
    (∀ ref, ref < h.cells.length → ref ≠ nsRef → ref ≠ visRef →
      ((h.set visRef v).set nsRef w).get ref = h.get ref) ∧
    h.cells.length ≤ ((h.set visRef v).set nsRef w).cells.length :=
  ⟨fun ref _ hn hv => by
      rw [Heap.get_set_ne _ _ _ _ (Ne.symm hn), Heap.get_set_ne _ _ _ _ (Ne.symm hv)],
   by rw [Heap.length_set, Heap.length_set]⟩

theorem loop_tail_frame (f : Nat) (LF : LoopFrameP f) {env : Env} {d : String}
    {q : Nat} {nsRef visRef : Ref} {hmid : Heap} {c2 : Nat}
    {res : Except String RRset} {h' : Heap} {c' : Nat} {h : Heap}
    (hr : resolveLoop env f d q nsRef visRef hmid c2 = some (res, h', c'))
    (hpres : ∀ ref, ref < h.cells.length → ref ≠ nsRef → ref ≠ visRef →
      hmid.get ref = h.get ref)
    (hlen : h.cells.length ≤ hmid.cells.length) :
    (∀ ref, ref < h.cells.length → ref ≠ nsRef → ref ≠ visRef →
      h'.get ref = h.get ref) ∧
    h.cells.length ≤ h'.cells.length := by
  obtain ⟨p1, l1⟩ := LF env d q nsRef visRef hmid c2 res h' c' hr
  exact ⟨fun ref hlt hn hv =>
      (p1 ref (Nat.lt_of_lt_of_le hlt hlen) hn hv).trans (hpres ref hlt hn hv),
    Nat.le_trans hlen l1⟩

theorem loopFrame_succ (f : Nat) (RF : ResolveFrameP f) (LF : LoopFrameP f)
    (NF : NSFrameP f) : LoopFrameP (f+1) := by
  intro env d q nsRef visRef h c res h' c' hr
  rw [resolveLoop_succ] at hr
  simp only [resolveLoopBody] at hr
  split at hr
  · cases hr
    exact ⟨fun _ _ _ _ => rfl, Nat.le_refl _⟩
  · split at hr
    · exact loop_tail_frame f LF hr (pres_set_set h nsRef visRef _ _).1
        (pres_set_set h nsRef visRef _ _).2
    · exact loop_tail_frame f LF hr (pres_set_set h nsRef visRef _ _).1
        (pres_set_set h nsRef visRef _ _).2
    · rename_i response heqNet
      split at hr
      · rename_i ans heqScan
        cases hr
        refine ⟨fun ref hlt hn hv => ?_, ?_⟩
        · exact Heap.get_set_ne _ _ _ _ (Ne.symm hv)
        · exact Nat.le_of_eq (Heap.length_set _ _ _).symm
      · rename_i target heqScan
        split at hr
        · simp at hr
        · rename_i r0 heqRes
          split at hr
          · rename_i a heqOk
            cases hr
            obtain ⟨p0, l0⟩ := RF _ _ _ _ _ _ heqRes
            refine ⟨fun ref hlt hn hv => ?_, ?_⟩
            · rw [p0 ref (by rw [Heap.length_set]; exact hlt)]
              exact Heap.get_set_ne _ _ _ _ (Ne.symm hv)
            · exact Nat.le_trans (Nat.le_of_eq (Heap.length_set _ _ _).symm) l0
          · rename_i e heqErr
            obtain ⟨p0, l0⟩ := RF _ _ _ _ _ _ heqRes
            refine loop_tail_frame f LF hr ?_ ?_
            · intro ref hlt hn hv
              rw [Heap.get_set_ne _ _ _ _ (Ne.symm hn)]
              rw [p0 ref (by rw [Heap.length_set]; exact hlt)]
              exact Heap.get_set_ne _ _ _ _ (Ne.symm hv)
            · rw [Heap.length_set]
              exact Nat.le_trans (Nat.le_of_eq (Heap.length_set _ _ _).symm) l0
      · exact loop_tail_frame f LF hr (pres_set_set h nsRef visRef _ _).1
          (pres_set_set h nsRef visRef _ _).2
      · split at hr
        · split at hr
          · simp at hr
          · rename_i e h2 c2 heqNS
            obtain ⟨p2, l2⟩ := NF _ _ _ _ _ _ _ _ heqNS
            refine loop_tail_frame f LF hr ?_ ?_
            · intro ref hlt hn hv
              rw [Heap.get_set_ne _ _ _ _ (Ne.symm hn)]
              rw [p2 ref (by rw [Heap.length_set]; exact hlt)]
              exact Heap.get_set_ne _ _ _ _ (Ne.symm hv)
            · rw [Heap.length_set]
              exact Nat.le_trans (Nat.le_of_eq (Heap.length_set _ _ _).symm) l2
          · rename_i new_ns2 h2 c2 heqNS
            obtain ⟨p2, l2⟩ := NF _ _ _ _ _ _ _ _ heqNS
            split at hr
            · refine loop_tail_frame f LF hr ?_ ?_
              · intro ref hlt hn hv
                rw [p2 ref (by rw [Heap.length_set]; exact hlt)]
                exact Heap.get_set_ne _ _ _ _ (Ne.symm hv)
              · exact Nat.le_trans (Nat.le_of_eq (Heap.length_set _ _ _).symm) l2
            · refine loop_tail_frame f LF hr ?_ ?_
              · intro ref hlt hn hv
                rw [Heap.get_set_ne _ _ _ _ (Ne.symm hn)]
                rw [p2 ref (by rw [Heap.length_set]; exact hlt)]
                exact Heap.get_set_ne _ _ _ _ (Ne.symm hv)
              · rw [Heap.length_set]
                exact Nat.le_trans (Nat.le_of_eq (Heap.length_set _ _ _).symm) l2
        · exact loop_tail_frame f LF hr (pres_set_set h nsRef visRef _ _).1
            (pres_set_set h nsRef visRef _ _).2

/-- The frame property at every fuel: a `resolve` run leaves all pre-existing
cells untouched, and a loop run writes only its own two cells. -/
theorem frameAux : ∀ f : Nat, ResolveFrameP f ∧ LoopFrameP f := by
  intro f
  induction f with
  | zero =>
      constructor
      · intro env d q h c r hr
        rw [resolve_zero] at hr
        exact absurd hr (by simp)
      · intro env d q nsRef visRef h c res h' c' hr
        rw [resolveLoop_zero] at hr
        exact absurd hr (by simp)
  | succ f ih =>
      obtain ⟨RF, LF⟩ := ih
      exact ⟨resolveFrame_of_loopFrame f LF,
        loopFrame_succ f RF LF (nsFrame_of_resolveFrame f RF)⟩

/-! ## Single-iteration behaviour of the loop -/

/-- Lines 43-44: an empty pool raises immediately, before any pick, any
append to `visited`, and any query - heap and choice counter are untouched. -/
theorem loop_empty_pool (env : Env) (f : Nat) (d : String) (q : Nat)
    (nsRef visRef : Ref) (h : Heap) (c : Nat) (hpool : h.get nsRef = []) :
    resolveLoop env (f+1) d q nsRef visRef h c =
      some (.error "No more nameservers to query.", h, c) := by
  rw [resolveLoop_succ]
  simp only [resolveLoopBody, hpool, List.isEmpty_nil, if_true]

/-- Lines 116-121: a timeout or any other transport error removes the picked
server from the pool and goes back around the loop. -/
theorem loop_step_err (env : Env) (f : Nat) (d : String) (q : Nat)
    (nsRef visRef : Ref) (h : Heap) (c : Nat) (ns : String)
    (hns : ns = (h.get nsRef).getD (env.rand c % (h.get nsRef).length) "")
    (hne : h.get nsRef ≠ [])
    (herr : env.net ns d q = .timeout ∨ env.net ns d q = .netError) :
    resolveLoop env (f+1) d q nsRef visRef h c =
      resolveLoop env f d q nsRef visRef
        ((h.set visRef (h.get visRef ++ [ns])).set nsRef
          (((h.set visRef (h.get visRef ++ [ns])).get nsRef).erase ns)) (c+1) := by
  subst hns
  rw [resolveLoop_succ]
  simp only [resolveLoopBody]
  rw [if_neg (by simp [List.isEmpty_iff]; exact hne)]
  rcases herr with he | he <;> rw [he]

/-- A response with empty answer, additional and authority sections falls
through the whole `Interpret` step without touching the pool: only `visited`
grows (lines 59-111 followed by neither `continue` nor removal). -/
theorem loop_step_emptyresp (env : Env) (f : Nat) (d : String) (q : Nat)
    (nsRef visRef : Ref) (h : Heap) (c : Nat) (ns : String)
    (hns : ns = (h.get nsRef).getD (env.rand c % (h.get nsRef).length) "")
    (hne : h.get nsRef ≠ [])
    (hresp : env.net ns d q = .ok ⟨[], [], []⟩) :
    resolveLoop env (f+1) d q nsRef visRef h c =
      resolveLoop env f d q nsRef visRef
        (h.set visRef (h.get visRef ++ [ns])) (c+1) := by
  subst hns
  rw [resolveLoop_succ]
  simp only [resolveLoopBody]
  rw [if_neg (by simp [List.isEmpty_iff]; exact hne)]
  rw [hresp]
  simp only [scanAnswer, collectA, collectNS, resolveNSNames, List.isEmpty_nil, if_true]

/-! ## Exhaustion and divergence -/

/-- If every query for this request errors out, the loop removes one candidate
per round and, after exactly as many rounds as the pool has members, raises
the exhaustion error with the pool cell left empty. -/
theorem exhaust_loop (env : Env) (d : String) (q : Nat) (nsRef visRef : Ref)
    (hnv : nsRef ≠ visRef)
    (herr : ∀ s, env.net s d q = .timeout ∨ env.net s d q = .netError) :
    ∀ (len f : Nat) (h : Heap) (c : Nat), (h.get nsRef).length = len → len + 1 ≤ f →
    ∃ h', resolveLoop env f d q nsRef visRef h c =
        some (.error "No more nameservers to query.", h', c + len) ∧
      h'.get nsRef = [] := by
  intro len
  induction len with
  | zero =>
      intro f h c hlen hf
      obtain ⟨f', rfl⟩ : ∃ f', f = f' + 1 := ⟨f - 1, by omega⟩
      have hpool : h.get nsRef = [] := List.length_eq_zero.mp hlen
      exact ⟨h, by rw [loop_empty_pool env f' d q nsRef visRef h c hpool]; rfl, hpool⟩
  | succ len ih =>
      intro f h c hlen hf
      obtain ⟨f', rfl⟩ : ∃ f', f = f' + 1 := ⟨f - 1, by omega⟩
      have hne : h.get nsRef ≠ [] := by
        intro hx; rw [hx] at hlen; simp at hlen
      have hmem : (h.get nsRef).getD (env.rand c % (h.get nsRef).length) "" ∈ h.get nsRef :=
        getD_mem_of_lt _ _ _ (Nat.mod_lt _ (by rw [hlen]; omega))
      have hg1 : (h.set visRef (h.get visRef ++
          [(h.get nsRef).getD (env.rand c % (h.get nsRef).length) ""])).get nsRef
          = h.get nsRef := Heap.get_set_ne _ _ _ _ (Ne.symm hnv)
      have hltns : nsRef < (h.set visRef (h.get visRef ++
          [(h.get nsRef).getD (env.rand c % (h.get nsRef).length) ""])).cells.length :=
        Heap.lt_length_of_get_ne_nil _ _ (by rw [hg1]; exact hne)
      have hg2 : ((h.set visRef (h.get visRef ++
          [(h.get nsRef).getD (env.rand c % (h.get nsRef).length) ""])).set nsRef
            (((h.set visRef (h.get visRef ++
              [(h.get nsRef).getD (env.rand c % (h.get nsRef).length) ""])).get nsRef).erase
              ((h.get nsRef).getD (env.rand c % (h.get nsRef).length) ""))).get nsRef
          = (h.get nsRef).erase
              ((h.get nsRef).getD (env.rand c % (h.get nsRef).length) "") := by
        rw [Heap.get_set_self _ _ _ hltns, hg1]
      have hlen' : (((h.set visRef (h.get visRef ++
          [(h.get nsRef).getD (env.rand c % (h.get nsRef).length) ""])).set nsRef
            (((h.set visRef (h.get visRef ++
              [(h.get nsRef).getD (env.rand c % (h.get nsRef).length) ""])).get nsRef).erase
              ((h.get nsRef).getD (env.rand c % (h.get nsRef).length) ""))).get nsRef).length
          = len := by
        rw [hg2, List.length_erase_of_mem hmem, hlen]
        omega
      obtain ⟨h', hEq, hNil⟩ := ih f' _ (c+1) hlen' (by omega)
      refine ⟨h', ?_, hNil⟩
      rw [loop_step_err env f' d q nsRef visRef h c _ rfl hne (herr _)]
      have hc : (c+1) + len = c + (len+1) := by omega
      rw [hc] at hEq
      exact hEq

/-- With every queried server returning the empty response, the loop never
terminates: the pool cell is never changed and no exit path is ever taken. -/
theorem loop_diverge_empty (env : Env) (d : String) (q : Nat) (nsRef visRef : Ref)
    (hnv : nsRef ≠ visRef)
    (hnet : ∀ s, env.net s d q = .ok ⟨[], [], []⟩) :
    ∀ (f : Nat) (h : Heap) (c : Nat), h.get nsRef ≠ [] →
    resolveLoop env f d q nsRef visRef h c = none := by
  intro f
  induction f with
  | zero => intro h c _; exact resolveLoop_zero env d q nsRef visRef h c
  | succ f ih =>
      intro h c hne
      rw [loop_step_emptyresp env f d q nsRef visRef h c _ rfl hne (hnet _)]
      exact ih _ _ (by rw [Heap.get_set_ne _ _ _ _ (Ne.symm hnv)]; exact hne)

/-! ## Return-type postcondition -/

theorem loopType_succ (f : Nat) (RT : ResolveTypeP f) (LT : LoopTypeP f) :
    LoopTypeP (f+1) := by
  intro env d q nsRef visRef h c res h' c' a hr hok
  rw [resolveLoop_succ] at hr
  simp only [resolveLoopBody] at hr
  split at hr
  · cases hr
    simp at hok
  · split at hr
    · exact LT _ _ _ _ _ _ _ _ _ _ _ hr hok
    · exact LT _ _ _ _ _ _ _ _ _ _ _ hr hok
    · rename_i response heqNet
      split at hr
      · rename_i ans heqScan
        cases hr
        cases hok
        exact scanAnswer_found_rdtype q response.answer _ heqScan
      · rename_i target heqScan
        split at hr
        · simp at hr
        · rename_i r0 heqRes
          split at hr
          · rename_i a0 heqOk
            cases hr
            cases hok
            exact RT _ _ _ _ _ _ _ heqRes heqOk
          · exact LT _ _ _ _ _ _ _ _ _ _ _ hr hok
      · exact LT _ _ _ _ _ _ _ _ _ _ _ hr hok
      · split at hr
        · split at hr
          · simp at hr
          · exact LT _ _ _ _ _ _ _ _ _ _ _ hr hok
          · split at hr
            · exact LT _ _ _ _ _ _ _ _ _ _ _ hr hok
            · exact LT _ _ _ _ _ _ _ _ _ _ _ hr hok
        · exact LT _ _ _ _ _ _ _ _ _ _ _ hr hok

theorem resolveType_succ (f : Nat) (LT : LoopTypeP f) : ResolveTypeP (f+1) := by
  intro env d q h c r a hr hok
  rw [resolve_succ] at hr
  simp only [resolveBody] at hr
  split at hr
  · simp at hr
  · rename_i res h3 c3 heq
    cases hr
    exact LT _ _ _ _ _ _ _ _ _ _ _ heq hok

/-- The return-type postcondition at every fuel. -/
theorem typeAux : ∀ f : Nat, ResolveTypeP f ∧ LoopTypeP f := by
  intro f
  induction f with
  | zero =>
      constructor
      · intro env d q h c r a hr _
        rw [resolve_zero] at hr
        exact absurd hr (by simp)
      · intro env d q nsRef visRef h c res h' c' a hr _
        rw [resolveLoop_zero] at hr
        exact absurd hr (by simp)
  | succ f ih =>
      exact ⟨resolveType_succ f ih.2, loopType_succ f ih.1 ih.2⟩

/-! ## Further helper lemmas -/

/-- The pool cell a fresh call allocates initially holds the current contents
of the root table cell (`nameservers = ROOT_SERVERS[:]`, line 39). -/
theorem alloc2_get_ns (h : Heap) :
    ((h.alloc (h.get rootRef)).1.alloc []).1.get (h.alloc (h.get rootRef)).2
      = h.get rootRef := by
  have hlt : (h.alloc (h.get rootRef)).2 < (h.alloc (h.get rootRef)).1.cells.length := by
    rw [Heap.alloc_snd, Heap.length_alloc]
    exact Nat.lt_succ_self _
  rw [Heap.get_alloc_lt ((h.alloc (h.get rootRef)).1) [] ((h.alloc (h.get rootRef)).2) hlt]
  exact Heap.get_alloc_self h _

/-- If no record set in the answer section has the requested type or the
CNAME type, the scan of lines 60-67 falls through. -/
theorem scanAnswer_eq_noMatch (q : Nat) : ∀ (l : List RRset),
    (∀ rec ∈ l, rec.rdtype ≠ q ∧ rec.rdtype ≠ dns.rdatatype.CNAME) →
    scanAnswer q l = .noMatch
  | [], _ => rfl
  | x :: rest, hall => by
      have hx := hall x (List.mem_cons_self x rest)
      simp only [scanAnswer, if_neg hx.1, if_neg hx.2]
      exact scanAnswer_eq_noMatch q rest (fun rec hm => hall rec (List.mem_cons_of_mem x hm))

/-! ## Claim theorems -/

/-- C7: Pool-emptiness invariant.  A query attempt (pick, append to the
visited path, send) is made only when the candidate pool is non-empty: when
the pool cell is empty, the loop iteration terminates at once with the
exhaustion error, leaving the heap (hence the visited path) and the choice
counter (hence the pick stream) untouched - the empty pool is a terminal
failure state reached before any further pick (lines 42-47). -/
theorem emptyPool_terminal (env : Env) (f : Nat) (d : String) (q : Nat)
    (nsRef visRef : Ref) (h : Heap) (c : Nat) (hpool : h.get nsRef = []) :
    resolveLoop env (f+1) d q nsRef visRef h c =
      some (.error "No more nameservers to query.", h, c) :=
  loop_empty_pool env f d q nsRef visRef h c hpool

/-- Witness for C7 at a concrete state whose pool cell is empty. -/
theorem emptyPool_terminal_witness :
    resolveLoop envOK 1 "example.com" dns.rdatatype.A 1 2 ⟨[ROOT_SERVERS, [], []]⟩ 0 =
      some (.error "No more nameservers to query.", ⟨[ROOT_SERVERS, [], []]⟩, 0) :=
  emptyPool_terminal envOK 0 "example.com" dns.rdatatype.A 1 2 ⟨[ROOT_SERVERS, [], []]⟩ 0 rfl

/-- C3: when every query for this request errors (timeout or transport/decode
failure), each round removes exactly the picked candidate and retries, so the
call performs exactly one attempt per pool member (the final counter equals
the starting counter plus the root-table size), terminates by raising the
exhaustion error, and leaves its pool empty (lines 42-44, 116-121). -/
theorem allCandidatesFail_exhaustion (env : Env) (f : Nat) (d : String) (q : Nat)
    (h : Heap) (c : Nat)
    (herr : ∀ s, env.net s d q = .timeout ∨ env.net s d q = .netError)
    (hf : (h.get rootRef).length + 2 ≤ f) :
    ((resolve env f d q h c).map RunResult.result =
        some (.error "No more nameservers to query.")) ∧
    ((resolve env f d q h c).map (fun r => r.heap.get r.nsRef) = some []) ∧
    ((resolve env f d q h c).map RunResult.ctr = some (c + (h.get rootRef).length)) := by
  obtain ⟨f', rfl⟩ : ∃ f', f = f' + 1 := ⟨f - 1, by omega⟩
  have hnv : (h.alloc (h.get rootRef)).2 ≠ ((h.alloc (h.get rootRef)).1.alloc []).2 := by
    rw [Heap.alloc_snd, Heap.alloc_snd, Heap.length_alloc]
    exact Nat.ne_of_lt (Nat.lt_succ_self _)
  have hf2 : (h.get rootRef).length + 1 ≤ f' := Nat.le_of_succ_le_succ hf
  have hlen0 : (((h.alloc (h.get rootRef)).1.alloc []).1.get
      (h.alloc (h.get rootRef)).2).length = (h.get rootRef).length := by
    rw [alloc2_get_ns]
  obtain ⟨h', hEq, hNil⟩ := exhaust_loop env d q _ _ hnv herr (h.get rootRef).length f'
    ((h.alloc (h.get rootRef)).1.alloc []).1 c hlen0 hf2
  rw [resolve_succ]
  simp only [resolveBody]
  rw [hEq]
  refine ⟨rfl, ?_, rfl⟩
  show some (Heap.get h' (h.alloc (h.get rootRef)).2) = some []
  rw [hNil]

/-- Witness for C3: with every query timing out, a fresh call from the
initial heap exhausts all 13 roots and fails. -/
theorem allCandidatesFail_exhaustion_witness :
    (resolve envT 15 "example.com" dns.rdatatype.A Heap.init 0).map RunResult.result =
      some (.error "No more nameservers to query.") :=
  (allCandidatesFail_exhaustion envT 15 "example.com" dns.rdatatype.A Heap.init 0
    (fun _ => Or.inl rfl) (by decide)).1

/-- C9: return-type postcondition.  Whenever `resolve` returns normally - any
domain, any requested type, any fuel, through any depth of CNAME chasing -
the returned record set has exactly the requested type; in particular a
request for the CNAME type returns the CNAME record set itself (the branch of
line 61 fires before the branch of line 64). -/
theorem resolve_returns_requested_type (env : Env) (f : Nat) (d : String) (q : Nat)
    (h : Heap) (c : Nat) (r : RunResult) (a : RRset)
    (hr : resolve env f d q h c = some r) (hok : r.result = .ok a) :
    a.rdtype = q :=
  (typeAux f).1 env d q h c r a hr hok

/-- Witness for C9 at a successful concrete run. -/
theorem resolve_returns_requested_type_witness :
    (resolve envOK 3 "example.com" dns.rdatatype.A Heap.init 0 =
      some ⟨.ok ⟨"example.com", dns.rdatatype.A, ["93.184.216.34"]⟩,
        ⟨[ROOT_SERVERS, ROOT_SERVERS, ["198.41.0.4"]]⟩, 1, 1, 2⟩) ∧
    RRset.rdtype ⟨"example.com", dns.rdatatype.A, ["93.184.216.34"]⟩ = dns.rdatatype.A :=
  ⟨rfl, resolve_returns_requested_type envOK 3 "example.com" dns.rdatatype.A Heap.init 0
    ⟨.ok ⟨"example.com", dns.rdatatype.A, ["93.184.216.34"]⟩,
      ⟨[ROOT_SERVERS, ROOT_SERVERS, ["198.41.0.4"]]⟩, 1, 1, 2⟩
    ⟨"example.com", dns.rdatatype.A, ["93.184.216.34"]⟩ rfl rfl⟩

/-- C8: state isolation.  A finished `resolve` invocation leaves every heap
cell that existed before the call - the process-wide root table in cell
`rootRef` as well as any other call's pool and visited cells - exactly as it
found them; the call's own `nameservers` and `visited` lists are freshly
allocated (at the first two addresses past the old heap), seeded by value
from the root cell (line 39: `ROOT_SERVERS[:]`), so removals and
replacements inside the call and inside any nested CNAME/glue call never
touch the root table or another call's state. -/
theorem resolve_state_isolation (env : Env) (f : Nat) (d : String) (q : Nat)
    (h : Heap) (c : Nat) (r : RunResult)
    (hr : resolve env f d q h c = some r) :
    (∀ ref, ref < h.cells.length → r.heap.get ref = h.get ref) ∧
    r.nsRef = h.cells.length ∧ r.visRef = h.cells.length + 1 := by
  cases f with
  | zero =>
      rw [resolve_zero] at hr
      exact absurd hr (by simp)
  | succ f' =>
      refine ⟨((frameAux (f'+1)).1 env d q h c r hr).1, ?_⟩
      rw [resolve_succ] at hr
      simp only [resolveBody] at hr
      split at hr
      · simp at hr
      · rename_i res h3 c3 heq
        cases hr
        refine ⟨Heap.alloc_snd h (h.get rootRef), ?_⟩
        show ((h.alloc (h.get rootRef)).1.alloc []).2 = h.cells.length + 1
        rw [Heap.alloc_snd, Heap.length_alloc]

/-- Witness for C8: a run from a heap holding the root table and one foreign
cell leaves both untouched (the run mutated its own fresh cells 2 and 3). -/
theorem resolve_state_isolation_witness :
    Heap.get ⟨[ROOT_SERVERS, ["1.2.3.4"], ROOT_SERVERS, ["198.41.0.4"]]⟩ 0 =
      Heap.get ⟨[ROOT_SERVERS, ["1.2.3.4"]]⟩ 0 ∧
    Heap.get ⟨[ROOT_SERVERS, ["1.2.3.4"], ROOT_SERVERS, ["198.41.0.4"]]⟩ 1 =
      Heap.get ⟨[ROOT_SERVERS, ["1.2.3.4"]]⟩ 1 :=
  have H := resolve_state_isolation envOK 3 "example.com" dns.rdatatype.A
    ⟨[ROOT_SERVERS, ["1.2.3.4"]]⟩ 0
    ⟨.ok ⟨"example.com", dns.rdatatype.A, ["93.184.216.34"]⟩,
      ⟨[ROOT_SERVERS, ["1.2.3.4"], ROOT_SERVERS, ["198.41.0.4"]]⟩, 1, 2, 3⟩ rfl
  ⟨H.1 0 (by decide), H.1 1 (by decide)⟩

/-- C1 (code defect): on a response with empty answer, empty additional and
empty authority sections, the reference code neither removes the just-queried
candidate nor replaces the pool - the loop falls through with the pool cell
unchanged (there is no removal between line 111 and the handlers), so the
call repeats the same query state forever.  Concretely: with every server
returning the empty response, `resolve` does not terminate within ANY fuel
bound, whereas the claimed behaviour (remove the candidate each round) would
exhaust the 13-element pool and raise after 13 rounds. -/
theorem emptyResponse_fallthrough_diverges :
    ∀ f : Nat, resolve envEmptyResp f "example.com" dns.rdatatype.A Heap.init 0 = none := by
  intro f
  cases f with
  | zero => exact resolve_zero envEmptyResp "example.com" dns.rdatatype.A Heap.init 0
  | succ f' =>
      rw [resolve_succ]
      simp only [resolveBody]
      rw [loop_diverge_empty envEmptyResp "example.com" dns.rdatatype.A
        (Heap.init.alloc (Heap.init.get rootRef)).2
        ((Heap.init.alloc (Heap.init.get rootRef)).1.alloc []).2
        (by decide) (fun _ => rfl) f'
        ((Heap.init.alloc (Heap.init.get rootRef)).1.alloc []).1 0 (by decide)]

/-- C4 counterexample: the scan of lines 60-67 is first-match-in-order, not
matching-type-first.  In `envCname` every server answers `d.example` with an
answer section that CONTAINS a record of the requested type A (owner
`d.example`, address `1.1.1.1`), yet because a CNAME record precedes it,
`resolve` chases the CNAME and returns the record obtained for `t.example`
(`9.9.9.9`) - a different record - instead of returning the matching record
as the claim states. -/
theorem cname_priority_counterexample :
    envCname.net "198.41.0.4" "d.example" dns.rdatatype.A =
      .ok ⟨[⟨"d.example", dns.rdatatype.CNAME, ["t.example"]⟩,
            ⟨"d.example", dns.rdatatype.A, ["1.1.1.1"]⟩], [], []⟩ ∧
    (resolve envCname 10 "d.example" dns.rdatatype.A Heap.init 0).map RunResult.result =
      some (.ok ⟨"t.example", dns.rdatatype.A, ["9.9.9.9"]⟩) ∧
    (⟨"t.example", dns.rdatatype.A, ["9.9.9.9"]⟩ : RRset) ≠
      ⟨"d.example", dns.rdatatype.A, ["1.1.1.1"]⟩ :=
  ⟨rfl, rfl, by decide⟩

/-- C4 amended: the interpretation acts on the FIRST record set of the answer
section whose type is the requested type or CNAME; a record of the requested
type is returned (terminal success) exactly when it precedes every CNAME
record in the answer section - in that case the response containing a later
CNAME does not trigger a chase.  (The claim as stated - matching type wins
even when a CNAME is also present - fails when the CNAME comes first; see the
counterexample.) -/
theorem answer_scan_first_match (env : Env) (f : Nat) (d : String) (q : Nat)
    (nsRef visRef : Ref) (h : Heap) (c : Nat) (resp : DNSResponse) (i : Nat)
    (hpool : h.get nsRef ≠ [])
    (hnet : env.net ((h.get nsRef).getD (env.rand c % (h.get nsRef).length) "") d q
      = .ok resp)
    (hi : i < resp.answer.length)
    (hty : (resp.answer.get ⟨i, hi⟩).rdtype = q)
    (hprev : ∀ j (hj : j < i), (resp.answer.get ⟨j, Nat.lt_trans hj hi⟩).rdtype ≠ q ∧
        (resp.answer.get ⟨j, Nat.lt_trans hj hi⟩).rdtype ≠ dns.rdatatype.CNAME) :
    resolveLoop env (f+1) d q nsRef visRef h c =
      some (.ok (resp.answer.get ⟨i, hi⟩),
        h.set visRef (h.get visRef ++
          [(h.get nsRef).getD (env.rand c % (h.get nsRef).length) ""]),
        c+1) := by
  have hscan := scanAnswer_eq_found q resp.answer i hi hty hprev
  rw [resolveLoop_succ]
  simp only [resolveLoopBody]
  rw [if_neg (by simp [List.isEmpty_iff]; exact hpool)]
  rw [hnet]
  simp only [hscan]

/-- Witness for the amended C4: a matching A record in first position is
returned even though a CNAME record follows it in the answer section. -/
theorem answer_scan_first_match_witness :
    resolveLoop envPrio 1 "d.example" dns.rdatatype.A 1 2
      ⟨[ROOT_SERVERS, ROOT_SERVERS, []]⟩ 0 =
      some (.ok ⟨"d.example", dns.rdatatype.A, ["1.1.1.1"]⟩,
        ⟨[ROOT_SERVERS, ROOT_SERVERS, ["198.41.0.4"]]⟩, 1) :=
  answer_scan_first_match envPrio 0 "d.example" dns.rdatatype.A 1 2
    ⟨[ROOT_SERVERS, ROOT_SERVERS, []]⟩ 0
    ⟨[⟨"d.example", dns.rdatatype.A, ["1.1.1.1"]⟩,
      ⟨"d.example", dns.rdatatype.CNAME, ["t.example"]⟩], [], []⟩ 0
    (by decide) rfl (by decide) rfl
    (fun j hj => absurd hj (Nat.not_lt_zero j))

/-- C6: glue referral replaces the pool wholesale.  When the answer section
yields neither a matching record nor a CNAME and the additional section
yields at least one address, the next round runs with the pool cell set to
EXACTLY the concatenated addresses of all A record sets of the additional
section, in order - characterised independently as
`filter (rdtype = A)` then concatenation of the data, with no owner-name
check against the authority section - and every previous candidate is
discarded (lines 78-85). -/
theorem glue_replaces_pool (env : Env) (f : Nat) (d : String) (q : Nat)
    (nsRef visRef : Ref) (h : Heap) (c : Nat) (resp : DNSResponse)
    (hpool : h.get nsRef ≠ [])
    (hnet : env.net ((h.get nsRef).getD (env.rand c % (h.get nsRef).length) "") d q
      = .ok resp)
    (hnoans : ∀ rec ∈ resp.answer, rec.rdtype ≠ q ∧ rec.rdtype ≠ dns.rdatatype.CNAME)
    (hglue : collectA resp.additional ≠ []) :
    resolveLoop env (f+1) d q nsRef visRef h c =
      resolveLoop env f d q nsRef visRef
        ((h.set visRef (h.get visRef ++
            [(h.get nsRef).getD (env.rand c % (h.get nsRef).length) ""])).set nsRef
          (collectA resp.additional)) (c+1) ∧
    collectA resp.additional =
      ((resp.additional.filter fun rr => rr.rdtype = dns.rdatatype.A).map
        RRset.data).flatten := by
  constructor
  · rw [resolveLoop_succ]
    simp only [resolveLoopBody]
    rw [if_neg (by simp [List.isEmpty_iff]; exact hpool)]
    rw [hnet]
    simp only [scanAnswer_eq_noMatch q resp.answer hnoans]
    rw [if_neg (by simp [List.isEmpty_iff]; exact hglue)]
  · exact collectA_eq_filter_join resp.additional

/-- Witness for C6: a referral whose additional section holds two A record
sets (owner names unrelated to the authority NS hostname) and one NS record
set; the next round's pool is exactly the two addresses, in order. -/
theorem glue_replaces_pool_witness :
    (resolveLoop envGlue 2 "example.com" dns.rdatatype.A 1 2
        ⟨[ROOT_SERVERS, ROOT_SERVERS, []]⟩ 0 =
      resolveLoop envGlue 1 "example.com" dns.rdatatype.A 1 2
        ⟨[ROOT_SERVERS, ["7.7.7.7", "8.8.8.8"], ["198.41.0.4"]]⟩ 1) ∧
    collectA [⟨"ns1.tld", dns.rdatatype.A, ["7.7.7.7"]⟩,
      ⟨"unrelated.owner", dns.rdatatype.A, ["8.8.8.8"]⟩,
      ⟨"ns1.tld", dns.rdatatype.NS, ["skip.me"]⟩] = ["7.7.7.7", "8.8.8.8"] :=
  ⟨(glue_replaces_pool envGlue 1 "example.com" dns.rdatatype.A 1 2
      ⟨[ROOT_SERVERS, ROOT_SERVERS, []]⟩ 0
      ⟨[], [⟨"ns1.tld", dns.rdatatype.A, ["7.7.7.7"]⟩,
            ⟨"unrelated.owner", dns.rdatatype.A, ["8.8.8.8"]⟩,
            ⟨"ns1.tld", dns.rdatatype.NS, ["skip.me"]⟩],
          [⟨"tld", dns.rdatatype.NS, ["ns-other.example"]⟩]⟩
      (by decide) rfl (by intro rec hm; simp at hm) (by decide)).1,
    rfl⟩

/-- C5: every nested resolution is a fresh top-level `resolve` call.  (1) The
CNAME chase of line 67 invokes `resolve` itself on the target and returns its
normal result directly as the outer call's result.  (2) If the root cell is
empty, any `resolve` call raises exhaustion immediately: the fresh call's
pool is seeded from the root candidate set, never from the current pool.
(3) The glue resolution of an NS hostname (line 105) is likewise a top-level
`resolve(hostname, A)` invocation whose returned addresses extend the
aggregate. -/
theorem nested_calls_fresh_toplevel (env : Env) (f : Nat) (d : String) (q : Nat)
    (nsRef visRef : Ref) (h : Heap) (c : Nat) (resp : DNSResponse)
    (target : String) (r : RunResult) (a : RRset)
    (hpool : h.get nsRef ≠ [])
    (hnet : env.net ((h.get nsRef).getD (env.rand c % (h.get nsRef).length) "") d q
      = .ok resp)
    (hscan : scanAnswer q resp.answer = .cnameFound target)
    (hnested : resolve env f target q
      (h.set visRef (h.get visRef ++
        [(h.get nsRef).getD (env.rand c % (h.get nsRef).length) ""])) (c+1) = some r)
    (hok : r.result = .ok a) :
    resolveLoop env (f+1) d q nsRef visRef h c = some (.ok a, r.heap, r.ctr) ∧
    (∀ (f' : Nat) (d' : String) (q' : Nat) (h' : Heap) (c' : Nat),
      h'.get rootRef = [] →
      (resolve env (f'+2) d' q' h' c').map RunResult.result =
        some (.error "No more nameservers to query.")) ∧
    (∀ (name : String) (rest acc : List String) (h' : Heap) (c' : Nat)
        (r' : RunResult) (a' : RRset),
      resolve env f name dns.rdatatype.A h' c' = some r' → r'.result = .ok a' →
      resolveNSNames (resolve env f) (name :: rest) acc h' c' =
        resolveNSNames (resolve env f) rest
          (if a'.data.isEmpty then acc else acc ++ a'.data) r'.heap r'.ctr) := by
  refine ⟨?_, ?_, ?_⟩
  · rw [resolveLoop_succ]
    simp only [resolveLoopBody]
    rw [if_neg (by simp [List.isEmpty_iff]; exact hpool)]
    rw [hnet]
    simp only [hscan]
    rw [hnested]
    simp only [hok]
  · intro f' d' q' h' c' hroot
    rw [resolve_succ]
    simp only [resolveBody]
    rw [loop_empty_pool env f' d' q'
      (h'.alloc (h'.get rootRef)).2 ((h'.alloc (h'.get rootRef)).1.alloc []).2
      ((h'.alloc (h'.get rootRef)).1.alloc []).1 c'
      (by rw [alloc2_get_ns]; exact hroot)]
    rfl
  · intro name rest acc h' c' r' a' hres hok'
    simp only [resolveNSNames]
    rw [hres]
    simp only [hok']

/-- Witness for C5: in `envCname`, the outer iteration on `d.example` chases
the CNAME to `t.example` with a fresh top-level call whose result is returned
directly. -/
theorem nested_calls_fresh_toplevel_witness :
    resolveLoop envCname 6 "d.example" dns.rdatatype.A 1 2
      ⟨[ROOT_SERVERS, ROOT_SERVERS, []]⟩ 0 =
      some (.ok ⟨"t.example", dns.rdatatype.A, ["9.9.9.9"]⟩,
        ⟨[ROOT_SERVERS, ROOT_SERVERS, ["198.41.0.4"], ROOT_SERVERS, ["198.41.0.4"]]⟩, 2) :=
  (nested_calls_fresh_toplevel envCname 5 "d.example" dns.rdatatype.A 1 2
    ⟨[ROOT_SERVERS, ROOT_SERVERS, []]⟩ 0
    ⟨[⟨"d.example", dns.rdatatype.CNAME, ["t.example"]⟩,
      ⟨"d.example", dns.rdatatype.A, ["1.1.1.1"]⟩], [], []⟩
    "t.example"
    ⟨.ok ⟨"t.example", dns.rdatatype.A, ["9.9.9.9"]⟩,
      ⟨[ROOT_SERVERS, ROOT_SERVERS, ["198.41.0.4"], ROOT_SERVERS, ["198.41.0.4"]]⟩, 2, 3, 4⟩
    ⟨"t.example", dns.rdatatype.A, ["9.9.9.9"]⟩
    (by decide) rfl rfl rfl rfl).1

/-- C2 counterexample: a nested glue-resolution failure is NOT represented as
an empty per-hostname result, and partial success is NOT kept.  In
`envPartial` every root query for `example.com` returns an authority-only
referral naming `x.ns.example` (unresolvable everywhere) and `y.ns.example`
(which resolves to `5.6.7.8`, whose server would answer `example.com`).  Were
the claim true, the round after the referral would query exactly `5.6.7.8`
and the call would succeed; instead the exception from the nested resolution
of `x.ns.example` aborts the hostname loop before `y.ns.example` is tried,
is caught by the outer handler, which removes the queried root, and after all
13 roots are consumed this way the whole call fails with exhaustion. -/
theorem partial_glue_counterexample :
    (resolve envPartial 60 "example.com" dns.rdatatype.A Heap.init 0).map
        RunResult.result = some (.error "No more nameservers to query.") ∧
    (resolve envPartial 20 "y.ns.example" dns.rdatatype.A Heap.init 0).map
        RunResult.result =
      some (.ok ⟨"y.ns.example", dns.rdatatype.A, ["5.6.7.8"]⟩) ∧
    envPartial.net "5.6.7.8" "example.com" dns.rdatatype.A =
      .ok ⟨[⟨"example.com", dns.rdatatype.A, ["42.42.42.42"]⟩], [], []⟩ :=
  ⟨rfl, rfl, rfl⟩

/-- C2 amended: in an authority-only referral, the hostnames are resolved one
after another and a failing nested resolution is NOT caught per hostname: the
exception propagates out of the hostname loop (later hostnames are never
attempted and addresses already gathered are discarded), is caught by the
outer handler, which removes the just-queried candidate from the pool and
returns to candidate selection with the remaining candidates. -/
theorem authority_failure_aborts_aggregation (env : Env) (f : Nat) (d : String)
    (q : Nat) (nsRef visRef : Ref) (h : Heap) (c : Nat) (resp : DNSResponse)
    (e : String) (h2 : Heap) (c2 : Nat)
    (hpool : h.get nsRef ≠ [])
    (hnet : env.net ((h.get nsRef).getD (env.rand c % (h.get nsRef).length) "") d q
      = .ok resp)
    (hnoans : ∀ rec ∈ resp.answer, rec.rdtype ≠ q ∧ rec.rdtype ≠ dns.rdatatype.CNAME)
    (hadd : collectA resp.additional = [])
    (hfail : resolveNSNames (resolve env f) (collectNS resp.authority) []
      (h.set visRef (h.get visRef ++
        [(h.get nsRef).getD (env.rand c % (h.get nsRef).length) ""])) (c+1) =
      some (.error e, h2, c2)) :
    resolveLoop env (f+1) d q nsRef visRef h c =
      resolveLoop env f d q nsRef visRef
        (h2.set nsRef ((h2.get nsRef).erase
          ((h.get nsRef).getD (env.rand c % (h.get nsRef).length) ""))) c2 ∧
    (∀ (name : String) (rest acc : List String) (h' : Heap) (c' : Nat)
        (r' : RunResult) (e' : String),
      resolve env f name dns.rdatatype.A h' c' = some r' → r'.result = .error e' →
      resolveNSNames (resolve env f) (name :: rest) acc h' c' =
        some (.error e', r'.heap, r'.ctr)) := by
  constructor
  · rw [resolveLoop_succ]
    simp only [resolveLoopBody]
    rw [if_neg (by simp [List.isEmpty_iff]; exact hpool)]
    rw [hnet]
    simp only [scanAnswer_eq_noMatch q resp.answer hnoans]
    rw [if_pos (by rw [hadd]; rfl)]
    rw [hfail]
  · intro name rest acc h' c' r' e' hres herr'
    simp only [resolveNSNames]
    rw [hres]
    simp only [herr']

/-- Witness for the amended C2: the referral round in `envPartial` (hostname
loop fails on `x.ns.example` after exhausting all 13 roots in the nested
call) continues with the just-queried root removed from the outer pool. -/
theorem authority_failure_aborts_aggregation_witness :
    resolveLoop envPartial 17 "example.com" dns.rdatatype.A 1 2
      ⟨[ROOT_SERVERS, ROOT_SERVERS, []]⟩ 0 =
      resolveLoop envPartial 16 "example.com" dns.rdatatype.A 1 2
        ((⟨[ROOT_SERVERS, ROOT_SERVERS, ["198.41.0.4"], [], ROOT_SERVERS]⟩ : Heap).set 1
          (((⟨[ROOT_SERVERS, ROOT_SERVERS, ["198.41.0.4"], [], ROOT_SERVERS]⟩ : Heap).get 1).erase
            "198.41.0.4")) 14 :=
  (authority_failure_aborts_aggregation envPartial 16 "example.com" dns.rdatatype.A 1 2
    ⟨[ROOT_SERVERS, ROOT_SERVERS, []]⟩ 0
    ⟨[], [], [⟨"com", dns.rdatatype.NS, ["x.ns.example", "y.ns.example"]⟩]⟩
    "No more nameservers to query."
    ⟨[ROOT_SERVERS, ROOT_SERVERS, ["198.41.0.4"], [], ROOT_SERVERS]⟩ 14
    (by decide) rfl (by intro rec hm; simp at hm) rfl rfl).1

/-- C10: safety of the failure-path removal.  When an iteration picks `ns`
from a non-empty pool, then at every point where a caught exception leads the
handlers of lines 116-121 to execute `nameservers.remove(ns)`, `ns` is still
a member of the current pool, so the removal always succeeds: (1) right after
the pick and the `visited` append (covering query-time failures and the
IndexError of line 65); (2) after any nested CNAME-chase call (line 67) that
completed - nested calls never write this call's pool cell; (3) after any run
of the hostname loop of lines 103-108 - likewise.  (Pool replacements of
lines 84 and 110 are immediately followed by `continue`, so no removal can
intervene between them and the next pick.) -/
theorem handler_removal_safe (env : Env) (f : Nat) (d : String) (q : Nat)
    (nsRef visRef : Ref) (h : Heap) (c : Nat) (ns : String) (h1 : Heap)
    (hpool : h.get nsRef ≠ []) (hnv : nsRef ≠ visRef)
    (hns : ns = (h.get nsRef).getD (env.rand c % (h.get nsRef).length) "")
    (hh1 : h1 = h.set visRef (h.get visRef ++ [ns])) :
    ns ∈ h1.get nsRef ∧
    (∀ (t : String) (r : RunResult),
      resolve env f t q h1 (c+1) = some r → ns ∈ r.heap.get nsRef) ∧
    (∀ (names acc : List String) (res : Except String (List String))
        (h2 : Heap) (c2 : Nat),
      resolveNSNames (resolve env f) names acc h1 (c+1) = some (res, h2, c2) →
      ns ∈ h2.get nsRef) := by
  have hmem : ns ∈ h.get nsRef := by
    rw [hns]
    exact getD_mem_of_lt _ _ _ (Nat.mod_lt _ (List.length_pos.mpr hpool))
  have hg1 : h1.get nsRef = h.get nsRef := by
    rw [hh1]
    exact Heap.get_set_ne _ _ _ _ (Ne.symm hnv)
  have hlt : nsRef < h1.cells.length :=
    Heap.lt_length_of_get_ne_nil _ _ (by rw [hg1]; exact hpool)
  refine ⟨by rw [hg1]; exact hmem, ?_, ?_⟩
  · intro t r hres
    have hpres := ((frameAux f).1 env t q h1 (c+1) r hres).1 nsRef hlt
    rw [hpres, hg1]
    exact hmem
  · intro names acc res h2 c2 hrun
    have hpres := (nsFrame_of_resolveFrame f (frameAux f).1 env names acc h1 (c+1)
      res h2 c2 hrun).1 nsRef hlt
    rw [hpres, hg1]
    exact hmem

/-- Witness for C10 at a concrete iteration state. -/
theorem handler_removal_safe_witness :
    "198.41.0.4" ∈ Heap.get ⟨[ROOT_SERVERS, ROOT_SERVERS, ["198.41.0.4"]]⟩ 1 :=
  (handler_removal_safe envOK 3 "example.com" dns.rdatatype.A 1 2
    ⟨[ROOT_SERVERS, ROOT_SERVERS, []]⟩ 0 "198.41.0.4"
    ⟨[ROOT_SERVERS, ROOT_SERVERS, ["198.41.0.4"]]⟩
    (by decide) (by decide) rfl rfl).1
